import Mathlib

/-
  Shallow embedding of the FlowMind priority-ordering and caching workflow
  (src/src/App.jsx): the storage layer for the priority cache, the oracle
  call wrapper prioritizeTasks, the coordinator runPrioritize, and the
  task-insertion path handleAdd with the id generator uid.
-/

namespace FlowMind

/-- Task record as built by the app (capture/voice/chat collaborators and the
seeded demo tasks). Optional JS properties (null or absent) are Option. -/
structure Task where
  id : String
  title : String
  deadline : Option String
  priority : String
  category : String
  energy : String
  aiHint : Option String
  status : String
  createdAt : String
  doneAt : Option String := none
  priorityReason : Option String := none
deriving Repr, DecidableEq

/-- The persisted priority-cache record in its well-formed shape, as written
by storage.savePriorityCache: a data array of (id, priorityReason) pairs plus
a timestamp. The source field is named at, a Lean keyword, hence atTime. -/
structure CacheEntry where
  data : List (String × Option String)
  atTime : Int
deriving Repr, DecidableEq

/-- JSON values, as produced by a successful JSON.parse. Numbers are modelled
as integers: every number the workflow stores or compares is a millisecond
timestamp. -/
inductive Json where
  | null
  | bool (b : Bool)
  | num (n : Int)
  | str (s : String)
  | arr (xs : List Json)
  | obj (fields : List (String × Json))

/-- State of one localStorage slot: absent (getItem returns null), holding
text that JSON.parse rejects, or holding text that parses to a JSON value. -/
inductive Stored where
  | absent
  | malformed
  | val (j : Json)

/-- JSON.parse applied to getItem(key) with the fallback string of the source,
getItem(key) or the text null: an absent slot parses to the JSON null value,
unparsable text throws (modelled as Except.error). -/
def parseStored : Stored → Except Unit Json
  | .absent => .ok .null
  | .malformed => .error ()
  | .val j => .ok j

/-- JS truthiness of a parsed JSON value: null, false, 0 and the empty string
are falsy; arrays and objects are always truthy. -/
def jsFalsy : Json → Bool
  | .null => true
  | .bool b => !b
  | .num n => n == 0
  | .str s => s == ""
  | .arr _ => false
  | .obj _ => false

/-- Property lookup on a parsed JSON object: JSON.parse keeps the last of
duplicate keys, so the lookup returns the last binding of the key. -/
def lookupLastField (fields : List (String × Json)) (k : String) : Option Json :=
  match fields with
  | [] => none
  | (k0, v0) :: rest =>
    match lookupLastField rest k with
    | some v => some v
    | none => if k0 = k then some v0 else none

/-- Numeric value that the subtraction now - c.at operates on, for a parsed
value c; none models NaN. On a non-object, the property access yields
undefined or a built-in method (String.prototype.at, Array.prototype.at),
and either coerces to NaN. On an object, JS ToNumber is applied to the
property value: null gives 0, booleans give 0 or 1, numbers are themselves,
strings parse as numbers (integer strings here, NaN otherwise), and a missing
property (undefined) gives NaN. -/
def atNumber : Json → Option Int
  | .obj fields =>
    match lookupLastField fields "at" with
    | some (.num n) => some n
    | some .null => some 0
    | some (.bool b) => some (if b then 1 else 0)
    | some (.str s) => if s = "" then some 0 else s.toInt?
    | _ => none
  | _ => none

/-- Embedding of storage.isPriorityCacheValid, reading the raw slot at the
current time: parse the slot (propagating a parse failure as an exception,
exactly as the unguarded JSON.parse of the source does), return false on a
falsy parse result, else compare now - c.at < 60 * 60 * 1000; a NaN
comparison is false. -/
def isPriorityCacheValid (now : Int) (s : Stored) : Except Unit Bool :=
  match parseStored s with
  | .error e => .error e
  | .ok c =>
    if jsFalsy c then .ok false
    else
      match atNumber c with
      | some a => .ok (decide (now - a < 60 * 60 * 1000))
      | none => .ok false

/-- Embedding of storage.savePriorityCache: stores the JSON text of the
object with fields data and at, the latter stamped with the current time. -/
def savePriorityCache (d : Json) (now : Int) : Stored :=
  .val (.obj [("data", d), ("at", .num now)])

/-- JSON encoding of a well-formed cache data array, as savePriorityCache
receives it from runPrioritize. -/
def encodeData (d : List (String × Option String)) : Json :=
  .arr (d.map fun p =>
    .obj [("id", .str p.1), ("priorityReason", match p.2 with
      | some s => .str s
      | none => .null)])

/-- Raw stored form of a typed cache slot: the coordinator-level model below
works with Option CacheEntry, whose stored counterpart this produces. -/
def toStored : Option CacheEntry → Stored
  | none => .absent
  | some e => .val (.obj [("data", encodeData e.data), ("at", .num e.atTime)])

/-- Validity of a typed cache slot at a given time, mirroring
isPriorityCacheValid on well-formed entries (the bridge is proved below). -/
def entryValid (now : Int) : Option CacheEntry → Bool
  | none => false
  | some e => decide (now - e.atTime < 60 * 60 * 1000)

/-- Outcome of the oracle round trip as seen by prioritizeTasks. throws: the
awaited callClaude promise rejects (network failure), so the exception leaves
prioritizeTasks. unparsable: the returned text fails JSON.parse, or the
parsed result has no usable order array so that result.order.map throws
inside the try block; both land in the same catch. parsed: the cleaned text
parses to an object with an order array of id strings and an optional
reasons object mapping ids to strings. -/
inductive OracleOutcome where
  | throws
  | unparsable
  | parsed (order : List String) (reasons : Option (List (String × String)))

/-- Lookup in the id-to-task map built by Object.fromEntries of
tasks.map of pairs (t.id, t): with duplicate keys the last entry wins. -/
def findLastTask (ts : List Task) (i : String) : Option Task :=
  match ts with
  | [] => none
  | t :: rest =>
    match findLastTask rest i with
    | some r => some r
    | none => if t.id = i then some t else none

/-- The priorityReason attached on the success path, embedding
result.reasons?.[t.id] || null: undefined when the reasons object is absent
or lacks the id, and the or-null coercion also sends an empty string (falsy
in JS) to null. Object lookup keeps the last duplicate key. -/
def jsReason (reasons : Option (List (String × String))) (i : String) : Option String :=
  match reasons with
  | none => none
  | some rs =>
    match (rs.reverse).find? (fun p => p.1 = i) with
    | none => none
    | some p => if p.2 = "" then none else some p.2

/-- Embedding of prioritizeTasks: on an empty input it returns the input
before any oracle call; a rejected oracle promise propagates (error); an
unparsable response is caught and the input is returned unchanged; on a
parsed response the returned ids are mapped back to task records through the
last-wins id map, ids not found among the submitted tasks are dropped by
filter(Boolean), and each surviving record gets priorityReason from the
reasons object. -/
def prioritizeTasks (tasks : List Task) (o : OracleOutcome) : Except Unit (List Task) :=
  if tasks.isEmpty then .ok tasks
  else
    match o with
    | .throws => .error ()
    | .unparsable => .ok tasks
    | .parsed order reasons =>
      let sorted := order.filterMap (fun i => findLastTask tasks i)
      .ok (sorted.map fun t => { t with priorityReason := jsReason reasons t.id })

/-- The cache-hit reconciliation of runPrioritize: map each cached (id,
reason) pair through the last-wins map of current tasks, overwrite
priorityReason with the cached reason, drop pairs whose id is gone, then
append every current task whose id is not mentioned by the cache, in its
existing relative order. -/
def reconcile (d : List (String × Option String)) (currentTasks : List Task) : List Task :=
  let reordered := d.filterMap (fun p =>
    (findLastTask currentTasks p.1).map (fun t => { t with priorityReason := p.2 }))
  let cachedIds := d.map Prod.fst
  let remaining := currentTasks.filter (fun t => !(cachedIds.contains t.id))
  reordered ++ remaining

/-- Observable result of one runPrioritize call: the returned task list, the
cache slot afterwards, and counters for oracle calls and cache writes. -/
structure RunOut where
  tasks : List Task
  cache : Option CacheEntry
  oracleCalls : Nat
  cacheWrites : Nat
deriving Repr, DecidableEq

/-- Embedding of runPrioritize(currentTasks, force). The cache slot is the
well-formed record savePriorityCache writes (the only writer in the source);
now is the current time read by the validity check and the cache stamp. The
steps follow the source: filter the active tasks and return the input
unchanged below the threshold of 2; on a valid cache and no force, return
the reconciliation without touching the cache or the oracle; otherwise call
prioritizeTasks on the actives, and on a caught exception return the input
unchanged, else append the non-active tasks to the oracle result and write
the new ordering with its reasons to the cache. -/
def runPrioritize (currentTasks : List Task) (force : Bool)
    (cache : Option CacheEntry) (o : OracleOutcome) (now : Int) : RunOut :=
  let active := currentTasks.filter (fun t => t.status == "active")
  if active.length < 2 then ⟨currentTasks, cache, 0, 0⟩
  else
    match cache, (!force && entryValid now cache : Bool) with
    | some e, true => ⟨reconcile e.data currentTasks, cache, 0, 0⟩
    | _, _ =>
      match prioritizeTasks active o with
      | .error _ => ⟨currentTasks, cache, 1, 0⟩
      | .ok sorted =>
        let doneTasks := currentTasks.filter (fun t => t.status != "active")
        let merged := sorted ++ doneTasks
        ⟨merged, some ⟨sorted.map (fun t => (t.id, t.priorityReason)), now⟩, 1, 1⟩

/-- Embedding of the id generator uid, Math.random().toString(36).slice(2, 9):
digits is the base-36 fractional expansion of the random value (what follows
the prefix of two characters 0 and the dot that slice removes) and the id is
its first seven digits rendered in base 36. Nothing makes two draws distinct
and distinct draws can share their first seven digits. -/
def uid (digits : List Nat) : String :=
  String.mk ((digits.take 7).map (fun d =>
    if d < 10 then Char.ofNat (48 + d) else Char.ofNat (87 + d)))

/-- Task-store insertion step of handleAdd: the new task (whose id the caller
produced with uid) is prepended to the list; no duplicate-id check exists. -/
def handleAdd (tasks : List Task) (task : Task) : List Task :=
  task :: tasks

/-- Pairwise distinctness of the ids in a store. -/
def idsDistinct : List Task → Bool
  | [] => true
  | t :: rest => !(rest.any (fun s => s.id == t.id)) && idsDistinct rest

/-- Number of records in a list carrying a given id. -/
def countId (ts : List Task) (i : String) : Nat :=
  (ts.filter (fun t => t.id == i)).length

/-- Pairwise distinctness of the ids in a cache data array. -/
def keysDistinct : List (String × Option String) → Bool
  | [] => true
  | p :: rest => !(rest.any (fun q => q.1 == p.1)) && keysDistinct rest

/-- Reconciliation result as claim C2 words it: the reconciled sequence,
then the active tasks added since the cache was written, then the non-active
tasks, each group in its internal order. Stated from the claim, for
comparison with the reconciliation the source performs. -/
def reconcileSpec (d : List (String × Option String)) (currentTasks : List Task) : List Task :=
  let reconciled := d.filterMap (fun p =>
    (currentTasks.find? (fun t => t.id == p.1)).map (fun t => { t with priorityReason := p.2 }))
  let cachedIds := d.map Prod.fst
  let newlyAdded := currentTasks.filter (fun t =>
    t.status == "active" && !(cachedIds.contains t.id))
  let nonActive := currentTasks.filter (fun t =>
    t.status != "active" && !(cachedIds.contains t.id))
  reconciled ++ newlyAdded ++ nonActive

/-- The priorityReason attachment as claim C4 words it: the value of the
rationale map for the id, null only when the id is absent from the map.
Stated from the claim, for comparison with the or-null coercion the source
performs. -/
def claimedReason (reasons : Option (List (String × String))) (i : String) : Option String :=
  match reasons with
  | none => none
  | some rs => ((rs.reverse).find? (fun p => p.1 = i)).map Prod.snd

/-- Reordered active list as claim C4 words it: the full task records of the
returned ids in the order given, dropping unknown ids, with priorityReason
taken by claimedReason. -/
def claimedReorder (active : List Task) (order : List String)
    (reasons : Option (List (String × String))) : List Task :=
  order.filterMap (fun i =>
    (active.find? (fun t => t.id == i)).map (fun t =>
      { t with priorityReason := claimedReason reasons i }))

/-- Reordered active list of the success path, phrased as the amended claim
C4: lookup of each returned id among the submitted actives (first match),
dropping unknown ids, priorityReason attached through the or-null coercion
of the source (absent or empty string gives null). Proved below to be what
runPrioritize computes when the active ids are distinct. -/
def specReorder (active : List Task) (order : List String)
    (reasons : Option (List (String × String))) : List Task :=
  order.filterMap (fun i =>
    (active.find? (fun t => t.id == i)).map (fun t =>
      { t with priorityReason := jsReason reasons i }))

/-- Concrete task builder for the closed instances below. -/
def mkTask (i : String) (st : String) (r : Option String) : Task :=
  { id := i, title := i, deadline := none, priority := "medium", category := "personal",
    energy := "medium", aiHint := none, status := st, createdAt := "t0", priorityReason := r }

/-- Concrete done task for the closed instances below. -/
def sampleDone : Task := mkTask "d" "done" none

/-- Concrete active task not mentioned by any sample cache entry. -/
def sampleNew : Task := mkTask "n" "active" none

/-- Concrete active task mentioned by the sample cache entries. -/
def sampleA1 : Task := mkTask "a1" "active" none

/-- Second concrete active task mentioned by the sample cache entries. -/
def sampleA2 : Task := mkTask "a2" "active" none

/-- A record found through the fromEntries map is a member of the list and
carries the looked-up id. -/
theorem findLastTask_eq_some {ts : List Task} {i : String} {t : Task}
    (h : findLastTask ts i = some t) : t ∈ ts ∧ t.id = i := by
  induction ts with
  | nil => simp [findLastTask] at h
  | cons t0 rest ih =>
    rw [findLastTask] at h
    cases hr : findLastTask rest i with
    | some r =>
      rw [hr] at h
      injection h with h
      subst h
      obtain ⟨hm, hi⟩ := ih hr
      exact ⟨List.mem_cons_of_mem _ hm, hi⟩
    | none =>
      rw [hr] at h
      by_cases h0 : t0.id = i
      · simp [h0] at h
        subst h
        exact ⟨List.mem_cons_self _ _, h0⟩
      · simp [h0] at h

/-- If no record carries the id, the fromEntries lookup misses. -/
theorem findLastTask_eq_none {ts : List Task} {i : String}
    (h : ∀ t ∈ ts, t.id ≠ i) : findLastTask ts i = none := by
  cases hf : findLastTask ts i with
  | none => rfl
  | some t =>
    obtain ⟨hm, hi⟩ := findLastTask_eq_some hf
    exact absurd hi (h t hm)

/-- If some record carries the id, the fromEntries lookup succeeds. -/
theorem findLastTask_isSome {ts : List Task} {i : String} {t : Task}
    (ht : t ∈ ts) (hid : t.id = i) : ∃ s, findLastTask ts i = some s := by
  induction ts with
  | nil => simp at ht
  | cons t0 rest ih =>
    rw [findLastTask]
    cases hr : findLastTask rest i with
    | some r => exact ⟨r, rfl⟩
    | none =>
      rcases List.mem_cons.mp ht with h0 | hm
      · subst h0
        simp [hid]
      · obtain ⟨s, hs⟩ := ih hm
        rw [hs] at hr
        cases hr

/-- Appending splits the id count. -/
theorem countId_append (A B : List Task) (i : String) :
    countId (A ++ B) i = countId A i + countId B i := by
  simp [countId, List.filter_append]

/-- A list with no record of the id counts zero. -/
theorem countId_eq_zero {ts : List Task} {i : String}
    (h : ∀ t ∈ ts, t.id ≠ i) : countId ts i = 0 := by
  induction ts with
  | nil => rfl
  | cons t rest ih =>
    have ht : ¬ (t.id == i) = true := by
      simp only [beq_iff_eq]
      exact h t (List.mem_cons_self _ _)
    simp only [countId, List.filter_cons]
    rw [if_neg ht]
    exact ih (fun s hs => h s (List.mem_cons_of_mem _ hs))

/-- Cons with the id adds one to the count. -/
theorem countId_cons_self {t : Task} {rest : List Task} {i : String}
    (h : t.id = i) : countId (t :: rest) i = countId rest i + 1 := by
  simp only [countId, List.filter_cons]
  rw [if_pos (by simpa using h)]
  simp [Nat.add_comm]

/-- Cons without the id keeps the count. -/
theorem countId_cons_ne {t : Task} {rest : List Task} {i : String}
    (h : t.id ≠ i) : countId (t :: rest) i = countId rest i := by
  simp only [countId, List.filter_cons]
  rw [if_neg (by simpa using h)]

/-- Unfolding of idsDistinct on a cons cell. -/
theorem idsDistinct_cons {t : Task} {rest : List Task}
    (h : idsDistinct (t :: rest) = true) :
    (∀ s ∈ rest, s.id ≠ t.id) ∧ idsDistinct rest = true := by
  simp only [idsDistinct, Bool.and_eq_true, Bool.not_eq_true',
    List.any_eq_false, beq_iff_eq] at h
  exact h

/-- In a store with pairwise distinct ids, a member id counts exactly one. -/
theorem countId_of_distinct {ts : List Task} {t : Task}
    (hd : idsDistinct ts = true) (ht : t ∈ ts) : countId ts t.id = 1 := by
  induction ts with
  | nil => simp at ht
  | cons s rest ih =>
    obtain ⟨h1, h2⟩ := idsDistinct_cons hd
    rcases List.mem_cons.mp ht with h0 | hm
    · subst h0
      rw [countId_cons_self rfl, countId_eq_zero h1]
    · have hne : s.id ≠ t.id := by
        intro he
        exact (h1 t hm) he.symm
      rw [countId_cons_ne hne]
      exact ih h2 hm

/-- Records sharing an id in a distinct-id store are the same record. -/
theorem eq_of_distinct_ids {ts : List Task} {s t : Task}
    (hd : idsDistinct ts = true) (hs : s ∈ ts) (ht : t ∈ ts)
    (h : s.id = t.id) : s = t := by
  induction ts with
  | nil => simp at hs
  | cons u rest ih =>
    obtain ⟨h1, h2⟩ := idsDistinct_cons hd
    rcases List.mem_cons.mp hs with hs0 | hsm <;>
      rcases List.mem_cons.mp ht with ht0 | htm
    · rw [hs0, ht0]
    · subst hs0
      exact absurd h.symm (h1 t htm)
    · subst ht0
      exact absurd h (h1 s hsm)
    · exact ih h2 hsm htm

/-- Filtering preserves distinctness of ids. -/
theorem idsDistinct_filter {ts : List Task} (p : Task → Bool)
    (hd : idsDistinct ts = true) : idsDistinct (ts.filter p) = true := by
  induction ts with
  | nil => rfl
  | cons t rest ih =>
    obtain ⟨h1, h2⟩ := idsDistinct_cons hd
    rw [List.filter_cons]
    by_cases hp : p t = true
    · rw [if_pos hp]
      simp only [idsDistinct, Bool.and_eq_true, Bool.not_eq_true',
        List.any_eq_false, beq_iff_eq]
      exact ⟨fun s hs => h1 s (List.mem_of_mem_filter hs), ih h2⟩
    · rw [if_neg hp]
      exact ih h2

/-- On a distinct-id store the fromEntries lookup agrees with first-match
search. -/
theorem findLastTask_eq_find {ts : List Task} (i : String)
    (hd : idsDistinct ts = true) :
    findLastTask ts i = ts.find? (fun t => t.id == i) := by
  induction ts with
  | nil => rfl
  | cons t rest ih =>
    obtain ⟨h1, h2⟩ := idsDistinct_cons hd
    rw [findLastTask, List.find?]
    by_cases h0 : t.id = i
    · have hr : findLastTask rest i = none := by
        apply findLastTask_eq_none
        intro s hs he
        exact (h1 s hs) (by rw [he, h0])
      rw [hr]
      simp [h0]
    · have hb : (t.id == i) = false := by simp [h0]
      cases hr : findLastTask rest i with
      | some r =>
        rw [← ih h2, hr]
        simp [hb]
      | none =>
        rw [← ih h2, hr]
        simp [hb, h0]

/-- Unfolding of keysDistinct on a cons cell. -/
theorem keysDistinct_cons {p : String × Option String} {rest : List (String × Option String)}
    (h : keysDistinct (p :: rest) = true) :
    (∀ q ∈ rest, q.1 ≠ p.1) ∧ keysDistinct rest = true := by
  simp only [keysDistinct, Bool.and_eq_true, Bool.not_eq_true',
    List.any_eq_false, beq_iff_eq] at h
  exact h

/-- The reordered part of the reconciliation counts zero for an id no cached
pair mentions. -/
theorem reordered_count_zero (d : List (String × Option String)) (ts : List Task)
    (i : String) (h : ∀ p ∈ d, p.1 ≠ i) :
    countId (d.filterMap (fun p =>
      (findLastTask ts p.1).map (fun t => { t with priorityReason := p.2 }))) i = 0 := by
  induction d with
  | nil => rfl
  | cons p rest ih =>
    have hrest : ∀ q ∈ rest, q.1 ≠ i := fun q hq => h q (List.mem_cons_of_mem _ hq)
    cases hf : findLastTask ts p.1 with
    | none =>
      simp only [List.filterMap_cons, hf, Option.map_none']
      exact ih hrest
    | some t =>
      simp only [List.filterMap_cons, hf, Option.map_some']
      have hid : t.id = p.1 := (findLastTask_eq_some hf).2
      have hne : ({ t with priorityReason := p.2 } : Task).id ≠ i := by
        intro heq
        exact h p (List.mem_cons_self _ _) (by rw [← hid]; exact heq)
      rw [countId_cons_ne hne]
      exact ih hrest

/-- The reordered part counts exactly one for an id that a cached pair
mentions, when the cached ids are pairwise distinct and some current record
carries the id. -/
theorem reordered_count_one (d : List (String × Option String)) (ts : List Task)
    (i : String) (hk : keysDistinct d = true)
    (hex : ∃ t ∈ ts, t.id = i) (hmem : ∃ p ∈ d, p.1 = i) :
    countId (d.filterMap (fun p =>
      (findLastTask ts p.1).map (fun t => { t with priorityReason := p.2 }))) i = 1 := by
  induction d with
  | nil => simp at hmem
  | cons p rest ih =>
    obtain ⟨h1, h2⟩ := keysDistinct_cons hk
    by_cases hp : p.1 = i
    · obtain ⟨t, ht, hid⟩ := hex
      obtain ⟨s, hs⟩ := findLastTask_isSome ht (show t.id = p.1 by rw [hid, hp])
      simp only [List.filterMap_cons, hs, Option.map_some']
      have hsid : s.id = p.1 := (findLastTask_eq_some hs).2
      have hself : ({ s with priorityReason := p.2 } : Task).id = i := by
        show s.id = i
        rw [hsid, hp]
      rw [countId_cons_self hself]
      rw [reordered_count_zero _ _ _ (fun q hq heq => h1 q hq (heq.trans hp.symm))]
    · have hmem2 : ∃ q ∈ rest, q.1 = i := by
        rcases hmem with ⟨q, hq, he⟩
        rcases List.mem_cons.mp hq with h0 | hm
        · exact absurd (h0 ▸ he) hp
        · exact ⟨q, hm, he⟩
      cases hf : findLastTask ts p.1 with
      | none =>
        simp only [List.filterMap_cons, hf, Option.map_none']
        exact ih h2 hmem2
      | some t =>
        simp only [List.filterMap_cons, hf, Option.map_some']
        have hid : t.id = p.1 := (findLastTask_eq_some hf).2
        have hne : ({ t with priorityReason := p.2 } : Task).id ≠ i := by
          intro heq
          exact hp (by rw [← hid]; exact heq)
        rw [countId_cons_ne hne]
        exact ih h2 hmem2

/-- The appended remainder counts zero for an id the cache mentions. -/
theorem remaining_count_zero (ids : List String) (ts : List Task) (i : String)
    (h : ids.contains i = true) :
    countId (ts.filter (fun t => !(ids.contains t.id))) i = 0 := by
  apply countId_eq_zero
  intro t ht he
  have hp := (List.mem_filter.mp ht).2
  rw [he, h] at hp
  cases hp

/-- The appended remainder counts the same as the input for an id the cache
does not mention. -/
theorem remaining_count_eq (ids : List String) (ts : List Task) (i : String)
    (h : ids.contains i = false) :
    countId (ts.filter (fun t => !(ids.contains t.id))) i = countId ts i := by
  induction ts with
  | nil => rfl
  | cons t rest ih =>
    rw [List.filter_cons]
    by_cases hti : t.id = i
    · have hc : (!(ids.contains t.id)) = true := by rw [hti, h]; rfl
      rw [if_pos hc, countId_cons_self hti, countId_cons_self hti, ih]
    · by_cases hc : (!(ids.contains t.id)) = true
      · rw [if_pos hc, countId_cons_ne hti, countId_cons_ne hti]
        exact ih
      · rw [if_neg hc, countId_cons_ne hti]
        exact ih

/-- Every record the reconciliation emits carries the id of some current
record. -/
theorem mem_reconcile {d : List (String × Option String)} {ts : List Task} {s : Task}
    (h : s ∈ reconcile d ts) : ∃ t ∈ ts, s.id = t.id := by
  simp only [reconcile] at h
  rcases List.mem_append.mp h with h | h
  · rcases List.mem_filterMap.mp h with ⟨p, hp, heq⟩
    rcases Option.map_eq_some'.mp heq with ⟨t, hf, rfl⟩
    exact ⟨t, (findLastTask_eq_some hf).1, rfl⟩
  · exact ⟨s, (List.mem_filter.mp h).1, rfl⟩

/-- Each current record appears exactly once in the reconciliation when the
store ids and the cached ids are pairwise distinct. -/
theorem reconcile_countId {d : List (String × Option String)} {ts : List Task}
    {t : Task} (hd : idsDistinct ts = true) (hk : keysDistinct d = true)
    (ht : t ∈ ts) : countId (reconcile d ts) t.id = 1 := by
  simp only [reconcile]
  rw [countId_append]
  by_cases hmem : ∃ p ∈ d, p.1 = t.id
  · rw [reordered_count_one d ts t.id hk ⟨t, ht, rfl⟩ hmem]
    have hc : (d.map Prod.fst).contains t.id = true := by
      rcases hmem with ⟨p, hp, he⟩
      simpa using List.mem_map.mpr ⟨p, hp, he⟩
    rw [remaining_count_zero _ _ _ hc]
  · rw [reordered_count_zero d ts t.id (fun p hp he => hmem ⟨p, hp, he⟩)]
    have hc : (d.map Prod.fst).contains t.id = false := by
      have : ¬ t.id ∈ d.map Prod.fst := by
        intro hm
        rcases List.mem_map.mp hm with ⟨p, hp, he⟩
        exact hmem ⟨p, hp, he⟩
      simpa using this
    rw [remaining_count_eq _ _ _ hc, countId_of_distinct hd ht]

/-- Coherence of the typed cache slot with the raw storage check: on slots in
the shape savePriorityCache writes, isPriorityCacheValid computes exactly
entryValid. -/
theorem isPriorityCacheValid_toStored (now : Int) (c : Option CacheEntry) :
    isPriorityCacheValid now (toStored c) = .ok (entryValid now c) := by
  cases c with
  | none => rfl
  | some e => rfl

/-- Below the ranking threshold the coordinator is the identity with no
side effects. -/
theorem runPrioritize_below_threshold {ts : List Task} {force : Bool}
    {cache : Option CacheEntry} {o : OracleOutcome} {now : Int}
    (h : (ts.filter (fun t => t.status == "active")).length < 2) :
    runPrioritize ts force cache o now = ⟨ts, cache, 0, 0⟩ := by
  simp only [runPrioritize, if_pos h]

/-- On a valid cache and no force the coordinator returns the reconciliation
with no side effects. -/
theorem runPrioritize_hit {ts : List Task} {e : CacheEntry} {o : OracleOutcome}
    {now : Int}
    (hlen : ¬ (ts.filter (fun t => t.status == "active")).length < 2)
    (hv : entryValid now (some e) = true) :
    runPrioritize ts false (some e) o now = ⟨reconcile e.data ts, some e, 0, 0⟩ := by
  simp only [runPrioritize, if_neg hlen, hv, Bool.not_false, Bool.true_and]

/-- On the oracle path a thrown oracle call is caught: the input comes back
with the cache untouched. -/
theorem runPrioritize_miss_throws {ts : List Task} {force : Bool}
    {cache : Option CacheEntry} {now : Int}
    (hlen : ¬ (ts.filter (fun t => t.status == "active")).length < 2)
    (hmiss : (!force && entryValid now cache) = false) :
    runPrioritize ts force cache .throws now = ⟨ts, cache, 1, 0⟩ := by
  have hne : (ts.filter (fun t => t.status == "active")).isEmpty = false := by
    cases hf : (ts.filter (fun t => t.status == "active")) with
    | nil => rw [hf] at hlen; simp at hlen
    | cons a l => rfl
  cases cache with
  | none =>
    simp only [runPrioritize, if_neg hlen, prioritizeTasks, hne]
    rfl
  | some e =>
    simp only [runPrioritize, if_neg hlen, hmiss, prioritizeTasks, hne]
    rfl

/-- On the oracle path an unparsable response is swallowed inside
prioritizeTasks, so the coordinator proceeds as on success: the actives come
back unchanged but regrouped before the non-actives, and the cache is
overwritten with the active ids and their current reasons. -/
theorem runPrioritize_miss_unparsable {ts : List Task} {force : Bool}
    {cache : Option CacheEntry} {now : Int}
    (hlen : ¬ (ts.filter (fun t => t.status == "active")).length < 2)
    (hmiss : (!force && entryValid now cache) = false) :
    runPrioritize ts force cache .unparsable now =
      ⟨(ts.filter (fun t => t.status == "active")) ++ ts.filter (fun t => t.status != "active"),
       some ⟨(ts.filter (fun t => t.status == "active")).map (fun t => (t.id, t.priorityReason)), now⟩,
       1, 1⟩ := by
  have hne : (ts.filter (fun t => t.status == "active")).isEmpty = false := by
    cases hf : (ts.filter (fun t => t.status == "active")) with
    | nil => rw [hf] at hlen; simp at hlen
    | cons a l => rfl
  cases cache with
  | none => simp only [runPrioritize, if_neg hlen, prioritizeTasks, hne]; rfl
  | some e => simp only [runPrioritize, if_neg hlen, hmiss, prioritizeTasks, hne]; rfl

/-- On the oracle path a parsed response is reordered through the last-wins
id map, reasons are attached, the non-actives are appended and the cache is
written once. -/
theorem runPrioritize_miss_parsed {ts : List Task} {force : Bool}
    {cache : Option CacheEntry} {now : Int} {order : List String}
    {reasons : Option (List (String × String))}
    (hlen : ¬ (ts.filter (fun t => t.status == "active")).length < 2)
    (hmiss : (!force && entryValid now cache) = false) :
    runPrioritize ts force cache (.parsed order reasons) now =
      ⟨((order.filterMap (fun i => findLastTask (ts.filter (fun t => t.status == "active")) i)).map
          (fun t => { t with priorityReason := jsReason reasons t.id }))
        ++ ts.filter (fun t => t.status != "active"),
       some ⟨((order.filterMap (fun i => findLastTask (ts.filter (fun t => t.status == "active")) i)).map
          (fun t => { t with priorityReason := jsReason reasons t.id })).map (fun t => (t.id, t.priorityReason)), now⟩,
       1, 1⟩ := by
  have hne : (ts.filter (fun t => t.status == "active")).isEmpty = false := by
    cases hf : (ts.filter (fun t => t.status == "active")) with
    | nil => rw [hf] at hlen; simp at hlen
    | cons a l => rfl
  cases cache with
  | none => simp only [runPrioritize, if_neg hlen, prioritizeTasks, hne]; rfl
  | some e => simp only [runPrioritize, if_neg hlen, hmiss, prioritizeTasks, hne]; rfl

/-- On a distinct-id active list, the success-path reordering computed by the
source (last-wins map lookup, then reason attachment keyed by the found
record) equals the first-match formulation keyed by the returned id. -/
theorem sorted_eq_specReorder (A : List Task) (order : List String)
    (reasons : Option (List (String × String))) (hdA : idsDistinct A = true) :
    (order.filterMap (fun i => findLastTask A i)).map
        (fun t => { t with priorityReason := jsReason reasons t.id })
      = specReorder A order reasons := by
  rw [List.map_filterMap, specReorder]
  apply List.filterMap_congr
  intro i _
  rw [findLastTask_eq_find i hdA]
  cases hf : A.find? (fun t => t.id == i) with
  | none => rfl
  | some t =>
    have hti : t.id = i := by simpa using List.find?_some hf
    simp [hti]

/-- Claim C5: with fewer than 2 active tasks, reprioritize returns the input
list unchanged for every force flag, issues no oracle call and performs no
cache write. -/
theorem c5_threshold_skip (ts : List Task) (force : Bool) (cache : Option CacheEntry)
    (o : OracleOutcome) (now : Int)
    (h : (ts.filter (fun t => t.status == "active")).length < 2) :
    (runPrioritize ts force cache o now).tasks = ts ∧
    (runPrioritize ts force cache o now).oracleCalls = 0 ∧
    (runPrioritize ts force cache o now).cacheWrites = 0 ∧
    (runPrioritize ts force cache o now).cache = cache := by
  rw [runPrioritize_below_threshold h]
  exact ⟨rfl, rfl, rfl, rfl⟩

/-- Witness for claim C5 at a one-task store. -/
theorem c5_threshold_skip_witness :
    ([mkTask "a" "active" none].filter (fun t => t.status == "active")).length < 2 ∧
    (runPrioritize [mkTask "a" "active" none] true none .throws 0).tasks
      = [mkTask "a" "active" none] :=
  ⟨by decide, (c5_threshold_skip [mkTask "a" "active" none] true none .throws 0 (by decide)).1⟩

/-- Claim C6: an entry written by put at time T is reported valid by isValid
at time now exactly when now - T < 1 hour; in particular it is valid at
T + 59 minutes and invalid at T + 61 minutes. -/
theorem c6_ttl_window (d : Json) (T now : Int) :
    isPriorityCacheValid now (savePriorityCache d T)
        = .ok (decide (now - T < 60 * 60 * 1000)) ∧
    isPriorityCacheValid (T + 59 * 60 * 1000) (savePriorityCache d T) = .ok true ∧
    isPriorityCacheValid (T + 61 * 60 * 1000) (savePriorityCache d T) = .ok false := by
  have h1 : ∀ n : Int, isPriorityCacheValid n (savePriorityCache d T)
      = .ok (decide (n - T < 60 * 60 * 1000)) := fun n => rfl
  refine ⟨h1 now, ?_, ?_⟩
  · rw [h1]
    have : T + 59 * 60 * 1000 - T < 60 * 60 * 1000 := by omega
    simp [this]
  · rw [h1]
    have : ¬ (T + 61 * 60 * 1000 - T < 60 * 60 * 1000) := by omega
    simp [this]

/-- Claim C3 counterexample: on persisted text that fails to parse, the
validity check does not return false but propagates the parse error, so the
claim that isValid never throws is false at this concrete stored state. -/
theorem c3_counterexample : isPriorityCacheValid 0 .malformed = .error () := rfl

/-- Claim C3, amended: isValid returns false for an absent entry and returns
a boolean (never an error) on every stored state whose text parses, however
malformed the shape; only stored text that JSON cannot parse makes it throw. -/
theorem c3_isValid_total_on_parseable (now : Int) (j : Json) :
    isPriorityCacheValid now .absent = .ok false ∧
    ∃ b : Bool, isPriorityCacheValid now (.val j) = .ok b := by
  refine ⟨rfl, ?_⟩
  simp only [isPriorityCacheValid, parseStored]
  by_cases hf : jsFalsy j = true
  · exact ⟨false, by rw [if_pos hf]⟩
  · rw [if_neg hf]
    cases ha : atNumber j with
    | some a => exact ⟨_, rfl⟩
    | none => exact ⟨false, rfl⟩

/-- Claim C7: a cached pair whose id is absent from the current task list is
skipped by the reconciliation; no record with that id appears in the
output. -/
theorem c7_no_resurrection (ts : List Task) (e : CacheEntry) (o : OracleOutcome)
    (now : Int) (i : String) (r : Option String)
    (hv : entryValid now (some e) = true)
    (hp : (i, r) ∈ e.data)
    (habs : ∀ t ∈ ts, t.id ≠ i) :
    ∀ s ∈ (runPrioritize ts false (some e) o now).tasks, s.id ≠ i := by
  by_cases hlen : (ts.filter (fun t => t.status == "active")).length < 2
  · rw [runPrioritize_below_threshold hlen]
    exact habs
  · rw [runPrioritize_hit hlen hv]
    intro s hs
    obtain ⟨t, ht, he⟩ := mem_reconcile hs
    rw [he]
    exact habs t ht

/-- Witness for claim C7: a valid entry holds a deleted id and the output of
the cache-hit call never shows it. -/
theorem c7_no_resurrection_witness :
    entryValid 0 (some ⟨[("gone", some "r"), ("a1", none), ("a2", none)], 0⟩) = true ∧
    ("gone", (some "r" : Option String)) ∈ ([("gone", some "r"), ("a1", none), ("a2", none)] :
      List (String × Option String)) ∧
    (∀ t ∈ [sampleA1, sampleA2], t.id ≠ "gone") ∧
    ∀ s ∈ (runPrioritize [sampleA1, sampleA2] false
        (some ⟨[("gone", some "r"), ("a1", none), ("a2", none)], 0⟩) .throws 0).tasks,
      s.id ≠ "gone" :=
  ⟨by decide, by decide, by decide,
    c7_no_resurrection [sampleA1, sampleA2] ⟨[("gone", some "r"), ("a1", none), ("a2", none)], 0⟩
      .throws 0 "gone" (some "r") (by decide) (by decide) (by decide)⟩

/-- Claim C8: reconciliation is deterministic and leaves the cache in place,
so reconciling the same valid entry against an unchanged task list twice
yields identical output both times, whatever the oracle would have said. -/
theorem c8_reconcile_idempotent (ts : List Task) (e : CacheEntry)
    (o1 o2 : OracleOutcome) (now : Int)
    (hv : entryValid now (some e) = true) :
    (runPrioritize ts false (some e) o1 now).cache = some e ∧
    (runPrioritize ts false (some e) o2 now).tasks
      = (runPrioritize ts false (some e) o1 now).tasks := by
  by_cases hlen : (ts.filter (fun t => t.status == "active")).length < 2
  · rw [runPrioritize_below_threshold hlen, runPrioritize_below_threshold hlen]
    exact ⟨rfl, rfl⟩
  · rw [runPrioritize_hit hlen hv, runPrioritize_hit hlen hv]
    exact ⟨rfl, rfl⟩

/-- Witness for claim C8 at a concrete valid entry and store. -/
theorem c8_reconcile_idempotent_witness :
    entryValid 0 (some ⟨[("a2", some "r"), ("a1", none)], 0⟩) = true ∧
    (runPrioritize [sampleA1, sampleA2] false (some ⟨[("a2", some "r"), ("a1", none)], 0⟩)
        .unparsable 0).tasks
      = (runPrioritize [sampleA1, sampleA2] false (some ⟨[("a2", some "r"), ("a1", none)], 0⟩)
        .throws 0).tasks :=
  ⟨by decide,
    (c8_reconcile_idempotent [sampleA1, sampleA2] ⟨[("a2", some "r"), ("a1", none)], 0⟩
      .throws .unparsable 0 (by decide)).2⟩

/-- Claim C1 counterexample: with 2 active tasks and an unparsable oracle
response, reprioritize with force does not keep the input order (the done
task moves behind the actives) and does write the cache, so the claim that
every oracle failure leaves order and cache untouched is false here. -/
theorem c1_counterexample :
    (runPrioritize [sampleDone, sampleA1, sampleA2] true none .unparsable 5).tasks
        ≠ [sampleDone, sampleA1, sampleA2] ∧
    (runPrioritize [sampleDone, sampleA1, sampleA2] true none .unparsable 5).cacheWrites = 1 ∧
    (runPrioritize [sampleDone, sampleA1, sampleA2] true none .unparsable 5).cache ≠ none := by
  decide

/-- Claim C1, amended: a thrown oracle call is caught and reprioritize with
force returns the input unchanged with no cache write; but a malformed or
unparsable response is swallowed inside the oracle wrapper, and reprioritize
then returns the actives (relative order kept, reasons untouched) regrouped
before the non-actives and overwrites the cache with the active ids and
their current reasons. -/
theorem c1_failure_paths (ts : List Task) (cache : Option CacheEntry) (now : Int)
    (hlen : 2 ≤ (ts.filter (fun t => t.status == "active")).length) :
    runPrioritize ts true cache .throws now = ⟨ts, cache, 1, 0⟩ ∧
    runPrioritize ts true cache .unparsable now =
      ⟨ts.filter (fun t => t.status == "active") ++ ts.filter (fun t => t.status != "active"),
       some ⟨(ts.filter (fun t => t.status == "active")).map (fun t => (t.id, t.priorityReason)),
         now⟩, 1, 1⟩ := by
  have hl := not_lt.mpr hlen
  exact ⟨runPrioritize_miss_throws hl rfl, runPrioritize_miss_unparsable hl rfl⟩

/-- Witness for the amended claim C1 at a concrete store. -/
theorem c1_failure_paths_witness :
    2 ≤ ([sampleA1, sampleA2, sampleDone].filter (fun t => t.status == "active")).length ∧
    runPrioritize [sampleA1, sampleA2, sampleDone] true none .throws 5
      = ⟨[sampleA1, sampleA2, sampleDone], none, 1, 0⟩ :=
  ⟨by decide, (c1_failure_paths [sampleA1, sampleA2, sampleDone] none 5 (by decide)).1⟩

/-- Claim C2 counterexample: with a valid entry and a done task preceding a
newly added active task, the code appends the uncached tasks in their
original interleaved order, not actives before non-actives as the claim
requires, so the claimed result shape is false here. -/
theorem c2_counterexample :
    entryValid 0 (some ⟨[("a1", some "r1"), ("a2", none)], 0⟩) = true ∧
    (runPrioritize [sampleDone, sampleNew, sampleA1, sampleA2] false
        (some ⟨[("a1", some "r1"), ("a2", none)], 0⟩) .throws 0).tasks
      ≠ reconcileSpec [("a1", some "r1"), ("a2", none)]
          [sampleDone, sampleNew, sampleA1, sampleA2] := by
  decide

/-- Claim C2, amended: on a cache hit the result is the reconciled sequence
followed by all tasks the entry does not mention, actives and non-actives
alike, in their original relative order; the cache is not modified; and when
the store ids and the cached ids are pairwise distinct, every active task
appears exactly once in the output. -/
theorem c2_reconciliation (ts : List Task) (e : CacheEntry) (o : OracleOutcome)
    (now : Int)
    (hd : idsDistinct ts = true) (hk : keysDistinct e.data = true)
    (hv : entryValid now (some e) = true)
    (hlen : 2 ≤ (ts.filter (fun t => t.status == "active")).length) :
    (runPrioritize ts false (some e) o now).tasks = reconcile e.data ts ∧
    (runPrioritize ts false (some e) o now).cache = some e ∧
    (runPrioritize ts false (some e) o now).cacheWrites = 0 ∧
    ∀ t ∈ ts, t.status = "active" →
      countId (runPrioritize ts false (some e) o now).tasks t.id = 1 := by
  have hl := not_lt.mpr hlen
  rw [runPrioritize_hit hl hv]
  refine ⟨rfl, rfl, rfl, ?_⟩
  intro t ht _
  exact reconcile_countId hd hk ht

/-- Witness for the amended claim C2 at a concrete store and entry. -/
theorem c2_reconciliation_witness :
    idsDistinct [sampleDone, sampleNew, sampleA1, sampleA2] = true ∧
    keysDistinct [("a1", some "r1"), ("a2", none)] = true ∧
    entryValid 0 (some ⟨[("a1", some "r1"), ("a2", none)], 0⟩) = true ∧
    2 ≤ ([sampleDone, sampleNew, sampleA1, sampleA2].filter
      (fun t => t.status == "active")).length ∧
    (runPrioritize [sampleDone, sampleNew, sampleA1, sampleA2] false
        (some ⟨[("a1", some "r1"), ("a2", none)], 0⟩) .throws 0).tasks
      = reconcile [("a1", some "r1"), ("a2", none)] [sampleDone, sampleNew, sampleA1, sampleA2] :=
  ⟨by decide, by decide, by decide, by decide,
    (c2_reconciliation [sampleDone, sampleNew, sampleA1, sampleA2]
      ⟨[("a1", some "r1"), ("a2", none)], 0⟩ .throws 0
      (by decide) (by decide) (by decide) (by decide)).1⟩

/-- Claim C4 counterexample: the rationale map carries an empty string for an
id, the claim says the attached priorityReason is that value, but the or-null
coercion of the source turns it into null, so the claimed output is false at
this input. -/
theorem c4_counterexample :
    (runPrioritize [sampleA1, sampleA2] true none
        (.parsed ["a2", "a1"] (some [("a2", "")])) 7).tasks
      ≠ claimedReorder [sampleA1, sampleA2] ["a2", "a1"] (some [("a2", "")])
        ++ [sampleA1, sampleA2].filter (fun t => t.status != "active") := by
  decide

/-- Claim C4, amended: on the oracle-success path with at least 2 active
tasks and distinct store ids, the result is the records of the returned ids
in order (unknown ids dropped), each with priorityReason set to the rationale
map value for its id where null replaces an absent or empty entry, followed
by the non-active tasks; and exactly one cache write occurs, storing that
ordering and those reasons. -/
theorem c4_success_path (ts : List Task) (cache : Option CacheEntry) (now : Int)
    (order : List String) (reasons : Option (List (String × String)))
    (hd : idsDistinct ts = true)
    (hlen : 2 ≤ (ts.filter (fun t => t.status == "active")).length) :
    (runPrioritize ts true cache (.parsed order reasons) now).tasks
      = specReorder (ts.filter (fun t => t.status == "active")) order reasons
        ++ ts.filter (fun t => t.status != "active") ∧
    (runPrioritize ts true cache (.parsed order reasons) now).cacheWrites = 1 ∧
    (runPrioritize ts true cache (.parsed order reasons) now).oracleCalls = 1 ∧
    (runPrioritize ts true cache (.parsed order reasons) now).cache
      = some ⟨(specReorder (ts.filter (fun t => t.status == "active")) order reasons).map
          (fun t => (t.id, t.priorityReason)), now⟩ := by
  have hl := not_lt.mpr hlen
  have hdA := idsDistinct_filter (fun t => t.status == "active") hd
  rw [runPrioritize_miss_parsed hl
    (show (!true && entryValid now cache) = false from rfl)]
  rw [sorted_eq_specReorder _ order reasons hdA]
  exact ⟨rfl, rfl, rfl, rfl⟩

/-- Witness for the amended claim C4 at a concrete store and response. -/
theorem c4_success_path_witness :
    idsDistinct [sampleA1, sampleA2, sampleDone] = true ∧
    2 ≤ ([sampleA1, sampleA2, sampleDone].filter (fun t => t.status == "active")).length ∧
    (runPrioritize [sampleA1, sampleA2, sampleDone] true none
        (.parsed ["a2", "a1"] (some [("a2", "quick win")])) 7).tasks
      = specReorder ([sampleA1, sampleA2, sampleDone].filter (fun t => t.status == "active"))
          ["a2", "a1"] (some [("a2", "quick win")])
        ++ [sampleA1, sampleA2, sampleDone].filter (fun t => t.status != "active") :=
  ⟨by decide, by decide,
    (c4_success_path [sampleA1, sampleA2, sampleDone] none 7 ["a2", "a1"]
      (some [("a2", "quick win")]) (by decide) (by decide)).1⟩

/-- Claim C9 counterexample: two distinct outcomes of the random draw map to
the same seven-character id, and inserting a task built from the second draw
into a store holding the first breaks id uniqueness; the generator gives no
guarantee and the insertion performs no duplicate check. -/
theorem c9_counterexample :
    ¬ ([1, 2, 3, 4, 5, 6, 7, 8] : List Nat) = [1, 2, 3, 4, 5, 6, 7, 9] ∧
    uid [1, 2, 3, 4, 5, 6, 7, 8] = uid [1, 2, 3, 4, 5, 6, 7, 9] ∧
    idsDistinct (handleAdd [mkTask (uid [1, 2, 3, 4, 5, 6, 7, 8]) "active" none]
      (mkTask (uid [1, 2, 3, 4, 5, 6, 7, 9]) "active" none)) = false := by
  decide

/-- Claim C9, amended: inserting a task preserves pairwise-distinct ids
exactly when the generated id differs from every id already in the store;
the code itself performs no duplicate check and the seven-character random
id does not guarantee freshness. -/
theorem c9_insert_preserves_unique_ids (ts : List Task) (t : Task)
    (hd : idsDistinct ts = true) (hfresh : ∀ s ∈ ts, s.id ≠ t.id) :
    idsDistinct (handleAdd ts t) = true := by
  simp only [handleAdd, idsDistinct, Bool.and_eq_true, Bool.not_eq_true',
    List.any_eq_false, beq_iff_eq]
  exact ⟨hfresh, hd⟩

/-- Witness for the amended claim C9 at a concrete fresh insertion. -/
theorem c9_insert_preserves_unique_ids_witness :
    idsDistinct [sampleA1, sampleA2] = true ∧
    (∀ s ∈ [sampleA1, sampleA2], s.id ≠ sampleNew.id) ∧
    idsDistinct (handleAdd [sampleA1, sampleA2] sampleNew) = true :=
  ⟨by decide, by decide,
    c9_insert_preserves_unique_ids [sampleA1, sampleA2] sampleNew (by decide) (by decide)⟩

/-- Claim C10: on the oracle-success path, a submitted active task whose id
is missing from the returned order appears neither in the returned list nor
in the cache entry written for it. -/
theorem c10_partial_order_drops (ts : List Task) (cache : Option CacheEntry)
    (now : Int) (order : List String) (reasons : Option (List (String × String)))
    (t : Task)
    (hd : idsDistinct ts = true)
    (hlen : 2 ≤ (ts.filter (fun t => t.status == "active")).length)
    (ht : t ∈ ts) (hact : t.status = "active") (hmiss2 : ¬ t.id ∈ order) :
    (∀ s ∈ (runPrioritize ts true cache (.parsed order reasons) now).tasks, s.id ≠ t.id) ∧
    (∀ d, (runPrioritize ts true cache (.parsed order reasons) now).cache = some d →
      ∀ p ∈ d.data, p.1 ≠ t.id) := by
  have hl := not_lt.mpr hlen
  rw [runPrioritize_miss_parsed hl
    (show (!true && entryValid now cache) = false from rfl)]
  have hsorted : ∀ u ∈ (order.filterMap
      (fun i => findLastTask (ts.filter (fun s => s.status == "active")) i)).map
        (fun u => { u with priorityReason := jsReason reasons u.id }), u.id ≠ t.id := by
    intro u hu he
    rcases List.mem_map.mp hu with ⟨v, hv, rfl⟩
    rcases List.mem_filterMap.mp hv with ⟨i, hi, hfv⟩
    have hvi : v.id = i := (findLastTask_eq_some hfv).2
    apply hmiss2
    rw [← he]
    show v.id ∈ order
    rw [hvi]
    exact hi
  constructor
  · intro s hs
    rcases List.mem_append.mp hs with h | h
    · exact hsorted s h
    · have hsm := List.mem_filter.mp h
      intro he
      have hst : s = t := eq_of_distinct_ids hd hsm.1 ht he
      have := hsm.2
      rw [hst, hact] at this
      simp at this
  · intro d hd2 p hp2
    injection hd2 with hd2
    rw [← hd2] at hp2
    rcases List.mem_map.mp hp2 with ⟨u, hu, rfl⟩
    exact hsorted u hu

/-- Witness for claim C10: an active task omitted by the returned order is
absent from the result and from the written cache entry. -/
theorem c10_partial_order_drops_witness :
    idsDistinct [sampleA1, sampleA2, sampleNew] = true ∧
    2 ≤ ([sampleA1, sampleA2, sampleNew].filter (fun t => t.status == "active")).length ∧
    sampleNew ∈ [sampleA1, sampleA2, sampleNew] ∧
    sampleNew.status = "active" ∧
    ¬ sampleNew.id ∈ ["a2", "a1"] ∧
    ∀ s ∈ (runPrioritize [sampleA1, sampleA2, sampleNew] true none
        (.parsed ["a2", "a1"] none) 3).tasks, s.id ≠ sampleNew.id :=
  ⟨by decide, by decide, by decide, by decide, by decide,
    (c10_partial_order_drops [sampleA1, sampleA2, sampleNew] none 3 ["a2", "a1"] none
      sampleNew (by decide) (by decide) (by decide) (by decide) (by decide)).1⟩

end FlowMind
